import Mathlib

/-!
Verification development of the u8g2 menu controller, `src/main.cpp`.

Shallow embedding of the menu controller.

* `int8_t` / `char` values are `Int`s kept in range by `wrap8` (two's complement,
  `char` is the signed 8-bit type of avr-gcc); `uint8_t` / `uint16_t` values are
  `Int`s reduced by `wrapU8` / `wrapU16`.
* `millis()` is a 32-bit `unsigned long`: a clock reading is the true time since
  boot reduced modulo `2^32`; `lastBounceTime` holds such a reading.
* The hardware is an input: every call of `buttonEvent` receives a `Poll` (what
  `millis()` and `digitalRead` return during that call), every call of
  `menuNavHandler` a `NavTick`, every iteration of a leaf loop a `LeafTick`.
  `delay` only lets time pass, which the inputs already express.
* A function whose loop waits for the user returns `Option`: `none` when the
  inputs end before the loop is left.
* The `u8g2` calls of `showMenu` are returned as a list of `DrawCmd`; elsewhere
  display calls do not touch `menuCursor` or `lastBounceTime` and are left out,
  except the values a leaf screen prints, which are logged in `shown`.
-/

namespace U8g2Menu

/-! ## Constants (lines 4-25 of main.cpp) -/

def MENU_BTN_PREV : Nat := 12
def MENU_BTN_NEXT : Nat := 10
def MENU_BTN_SEL : Nat := 11
def DEBOUNCE_DELAY : Nat := 100
def MAIN_MENU_LENGTH : Int := 3
def SUB_MENU_LENGTH : Int := 4
def FONT_HEIGHT : Int := 12
def FONT_WIDTH : Int := 6

/-! ## Machine integers -/

/-- Conversion to `int8_t` / `char`: two's complement wrap into `[-128, 127]`. -/
def wrap8 (x : Int) : Int := (x + 128) % 256 - 128

/-- Conversion to `uint8_t`. -/
def wrapU8 (x : Int) : Int := x % 256

/-- Conversion to `uint16_t`. -/
def wrapU16 (x : Int) : Int := x % 65536

/-- Number of values of the 32-bit `unsigned long`. -/
def ULONG : Nat := 4294967296

/-- The reading `millis()` gives at true time `t` (milliseconds since boot). -/
def millis (t : Nat) : Nat := t % ULONG

/-- The `unsigned long` difference `millis() - lastBounceTime` for a reading `m`. -/
def sinceBounce (m last : Nat) : Nat := (m + ULONG - last % ULONG) % ULONG

/-! ## Global state and hardware inputs -/

/-- Level returned by `digitalRead`. -/
inductive Level where
  | LOW
  | HIGH
deriving DecidableEq, Repr

/-- The globals `menuCursor` (line 49) and `lastBounceTime` (line 48). -/
structure State where
  menuCursor : Int
  lastBounceTime : Nat
deriving DecidableEq, Repr

/-- What the hardware answers during one call of `buttonEvent`: the time at the
`millis()` of line 151, the pin levels at the `digitalRead` of line 153 and the
time at the `millis()` of line 155. -/
structure Poll where
  now : Nat
  pins : Nat → Level
  stamp : Nat

/-- What the hardware answers during one call of `menuNavHandler`: the time at
line 120, the levels read at lines 122, 129 and 136, the input consumed by the
function called at line 138, and the time at line 141. -/
structure NavTick (ι : Type) where
  now : Nat
  next : Level
  prev : Level
  sel : Level
  callee : ι
  after : Nat

/-- The three `buttonEvent` calls one iteration of a leaf loop can make. -/
structure LeafTick where
  sel : Poll
  next : Poll
  prev : Poll

/-! ## `navBack`, `buttonEvent`, `menuNavHandler` -/

/-- Lines 113-116. -/
def navBack (st : State) : Option (Int × State) := some (-1, st)

/-- Lines 149-160. -/
def buttonEvent (button : Nat) (p : Poll) (st : State) : Bool × State :=
  if sinceBounce (millis p.now) st.lastBounceTime > DEBOUNCE_DELAY then
    if p.pins button = Level.LOW then
      (true, { st with lastBounceTime := millis p.stamp })
    else (false, st)
  else (false, st)

/-- Lines 124-126: `menuCursor++` and the upper clamp. -/
def cursorNext (menu_len c : Int) : Int :=
  if wrap8 (c + 1) ≥ menu_len then wrap8 (menu_len - 1) else wrap8 (c + 1)

/-- Lines 131-133: `menuCursor--` and the lower clamp. -/
def cursorPrev (c : Int) : Int :=
  if wrap8 (c - 1) < 0 then 0 else wrap8 (c - 1)

/-- Lines 122-134: the cursor after the Next and the Previous test of one tick. -/
def navCursor (menu_len : Int) (next prev : Level) (c : Int) : Int :=
  let c1 := if next = Level.LOW then cursorNext menu_len c else c
  if prev = Level.LOW then cursorPrev c1 else c1

/-- The call `funcptr[menuCursor]()` of line 138; an index outside the table is
undefined behaviour and gives `none`. -/
def callEntry {ι : Type} (funcptr : List (ι → State → Option (Int × State)))
    (i : Int) (inp : ι) (st : State) : Option (Int × State) :=
  if i < 0 then none
  else
    match funcptr.get? i.toNat with
    | none => none
    | some f => f inp st

/-- Lines 118-144. -/
def menuNavHandler {ι : Type} (funcptr : List (ι → State → Option (Int × State)))
    (menu_len : Int) (tk : NavTick ι) (st : State) : Option (Int × State) :=
  if sinceBounce (millis tk.now) st.lastBounceTime > DEBOUNCE_DELAY then
    let st1 : State := { st with menuCursor := navCursor menu_len tk.next tk.prev st.menuCursor }
    if tk.sel = Level.LOW then
      callEntry funcptr st1.menuCursor tk.callee st1
    else
      some (-2, { st1 with lastBounceTime := millis tk.after })
  else some (-2, st)

/-! ## Leaf screens -/

/-- Which branch one iteration of a leaf loop takes. -/
inductive LeafEvent where
  | exit
  | next
  | prev
  | idle
deriving DecidableEq, Repr

/-- The polling cascade shared by the loops of lines 294-309, 339-354 and
380-390: `while (buttonEvent(SEL) == false)`, then `if (buttonEvent(NEXT))`,
`else if (buttonEvent(PREV))`. -/
def leafPoll (tk : LeafTick) (st : State) : LeafEvent × State :=
  if (buttonEvent MENU_BTN_SEL tk.sel st).1 then
    (LeafEvent.exit, (buttonEvent MENU_BTN_SEL tk.sel st).2)
  else
    let st1 := (buttonEvent MENU_BTN_SEL tk.sel st).2
    if (buttonEvent MENU_BTN_NEXT tk.next st1).1 then
      (LeafEvent.next, (buttonEvent MENU_BTN_NEXT tk.next st1).2)
    else
      let st2 := (buttonEvent MENU_BTN_NEXT tk.next st1).2
      if (buttonEvent MENU_BTN_PREV tk.prev st2).1 then
        (LeafEvent.prev, (buttonEvent MENU_BTN_PREV tk.prev st2).2)
      else
        (LeafEvent.idle, (buttonEvent MENU_BTN_PREV tk.prev st2).2)

/-- The branches taken by the successive iterations of a leaf loop, up to and
including the iteration that leaves it. -/
def leafEvents : List LeafTick → State → List LeafEvent
  | [], _ => []
  | tk :: tks, st =>
    match (leafPoll tk st).1 with
    | LeafEvent.exit => [LeafEvent.exit]
    | e => e :: leafEvents tks (leafPoll tk st).2

/-- The labels of line 292. -/
def options : List String := ["Option A", "Option B", "Option C"]

/-- Locals of `subMenuItem1`; `shown` logs every `options[sel]` printed at line
316 (`none` for a read outside the array). -/
structure Item1Vars where
  sel : Int
  refresh : Bool
  shown : List (Option String)
deriving DecidableEq, Repr

/-- Lines 298-300: `sel += 1` on a `uint8_t` and the upper clamp. -/
def selNext (sel : Int) : Int :=
  if wrapU8 (sel + 1) > 2 then 2 else wrapU8 (sel + 1)

/-- Lines 305-307: `sel -= 1` on a `uint8_t` and the test `sel < 0`. -/
def selPrev (sel : Int) : Int :=
  if wrapU8 (sel - 1) < 0 then 0 else wrapU8 (sel - 1)

/-- The lookup `options[sel]` of line 316. -/
def optionAt (sel : Int) : Option String :=
  if sel < 0 then none else options.get? sel.toNat

/-- Lines 311-322: redraw when the dirty flag is set. -/
def item1Refresh (v : Item1Vars) : Item1Vars :=
  if v.refresh then { v with shown := v.shown ++ [optionAt v.sel], refresh := false } else v

/-- The loop of lines 294-323; the Boolean tells whether the loop was left. -/
def subMenuItem1_loop : List LeafTick → State → Item1Vars → Item1Vars × State × Bool
  | [], st, v => (v, st, false)
  | tk :: tks, st, v =>
    match (leafPoll tk st).1 with
    | LeafEvent.exit => (v, (leafPoll tk st).2, true)
    | LeafEvent.next =>
      subMenuItem1_loop tks (leafPoll tk st).2
        (item1Refresh { v with sel := selNext v.sel, refresh := true })
    | LeafEvent.prev =>
      subMenuItem1_loop tks (leafPoll tk st).2
        (item1Refresh { v with sel := selPrev v.sel, refresh := true })
    | LeafEvent.idle => subMenuItem1_loop tks (leafPoll tk st).2 (item1Refresh v)

/-- Locals at line 291-292: `refresh = true`, `sel = 0`. -/
def item1Init : Item1Vars := { sel := 0, refresh := true, shown := [] }

/-- Lines 284-328. -/
def subMenuItem1 (inp : List LeafTick) (st : State) : Option (Int × State) :=
  let r := subMenuItem1_loop inp st item1Init
  if r.2.2 then some (r.2.1.menuCursor, r.2.1) else none

/-- Locals of `subMenuItem2`; `shown` logs every `val` printed at line 360. -/
structure Item2Vars where
  val : Int
  refresh : Bool
  shown : List Int
deriving DecidableEq, Repr

/-- Lines 343-345: `val += 5` on a `uint16_t` and the upper clamp. -/
def valNext (val : Int) : Int :=
  if wrapU16 (val + 5) > 600 then 600 else wrapU16 (val + 5)

/-- Lines 350-352: `val -= 5` on a `uint16_t` and the test `val < 0`. -/
def valPrev (val : Int) : Int :=
  if wrapU16 (val - 5) < 0 then 0 else wrapU16 (val - 5)

/-- Lines 355-365: redraw when the dirty flag is set. -/
def item2Refresh (v : Item2Vars) : Item2Vars :=
  if v.refresh then { v with shown := v.shown ++ [v.val], refresh := false } else v

/-- The loop of lines 339-366; the Boolean tells whether the loop was left. -/
def subMenuItem2_loop : List LeafTick → State → Item2Vars → Item2Vars × State × Bool
  | [], st, v => (v, st, false)
  | tk :: tks, st, v =>
    match (leafPoll tk st).1 with
    | LeafEvent.exit => (v, (leafPoll tk st).2, true)
    | LeafEvent.next =>
      subMenuItem2_loop tks (leafPoll tk st).2
        (item2Refresh { v with val := valNext v.val, refresh := true })
    | LeafEvent.prev =>
      subMenuItem2_loop tks (leafPoll tk st).2
        (item2Refresh { v with val := valPrev v.val, refresh := true })
    | LeafEvent.idle => subMenuItem2_loop tks (leafPoll tk st).2 (item2Refresh v)

/-- Locals at lines 332 and 337: `refresh = true`, `val = 255`. -/
def item2Init : Item2Vars := { val := 255, refresh := true, shown := [] }

/-- Lines 330-370. -/
def subMenuItem2 (inp : List LeafTick) (st : State) : Option (Int × State) :=
  let r := subMenuItem2_loop inp st item2Init
  if r.2.2 then some (r.2.1.menuCursor, r.2.1) else none

/-- The loop of lines 380-403: nothing but the debounce stamp changes. -/
def subMenuItem3_loop : List LeafTick → State → State × Bool
  | [], st => (st, false)
  | tk :: tks, st =>
    match (leafPoll tk st).1 with
    | LeafEvent.exit => ((leafPoll tk st).2, true)
    | _ => subMenuItem3_loop tks (leafPoll tk st).2

/-- Lines 372-407. -/
def subMenuItem3 (inp : List LeafTick) (st : State) : Option (Int × State) :=
  let r := subMenuItem3_loop inp st
  if r.2 then some (r.1.menuCursor, r.1) else none

/-! ## The sub-menu -/

/-- The table of lines 73-78; `navBack` takes no input. -/
def subMenu_funcs : List (List LeafTick → State → Option (Int × State)) :=
  [subMenuItem1, subMenuItem2, subMenuItem3, fun _ st => navBack st]

/-- The loop of lines 271-275: it runs until `menuNavHandler` returns `-1`. -/
def subMenu_loop : List (NavTick (List LeafTick)) → State → Option State
  | [], _ => none
  | tk :: tks, st =>
    match menuNavHandler subMenu_funcs SUB_MENU_LENGTH tk st with
    | none => none
    | some (r, st1) => if r ≠ -1 then subMenu_loop tks st1 else some st1

/-- Lines 264-282. -/
def subMenu (inp : List (NavTick (List LeafTick))) (st : State) : Option (Int × State) :=
  let oldCursor := wrap8 st.menuCursor
  match subMenu_loop inp { st with menuCursor := 0 } with
  | none => none
  | some st1 => some (wrap8 oldCursor, { st1 with menuCursor := wrap8 oldCursor })

/-! ## The main menu -/

/-- The loop of lines 237-241 and 253-257: Select is polled, then Previous and
Next, whose results are discarded. -/
def menuItem_loop : List LeafTick → State → State × Bool
  | [], st => (st, false)
  | tk :: tks, st =>
    if (buttonEvent MENU_BTN_SEL tk.sel st).1 then
      ((buttonEvent MENU_BTN_SEL tk.sel st).2, true)
    else
      menuItem_loop tks
        (buttonEvent MENU_BTN_NEXT tk.next
          (buttonEvent MENU_BTN_PREV tk.prev (buttonEvent MENU_BTN_SEL tk.sel st).2).2).2

/-- Lines 231-246. -/
def menuItem1 (inp : List LeafTick) (st : State) : Option (Int × State) :=
  let r := menuItem_loop inp st
  if r.2 then some (r.1.menuCursor, r.1) else none

/-- Lines 248-262. -/
def menuItem2 (inp : List LeafTick) (st : State) : Option (Int × State) :=
  let r := menuItem_loop inp st
  if r.2 then some (r.1.menuCursor, r.1) else none

/-- Input of an entry of the main menu: the iterations of a leaf loop, or the
ticks of the sub-menu. -/
structure MainInput where
  leaf : List LeafTick
  sub : List (NavTick (List LeafTick))

/-- The table of lines 67-71. -/
def main_funcs : List (MainInput → State → Option (Int × State)) :=
  [fun i st => menuItem1 i.leaf st, fun i st => menuItem2 i.leaf st,
    fun i st => subMenu i.sub st]

/-! ## Rendering -/

/-- The display calls `showMenu` makes; `print m` stands for
`u8g2.print(menu[m])`. -/
inductive DrawCmd where
  | setFontSymbols
  | setFontMain
  | drawGlyph (x y : Int) (code : Nat)
  | setCursor (x y : Int)
  | print (m : Nat)
  | sendBuffer
deriving DecidableEq, Repr

/-- Lines 171-173 and 190-192: the cursor glyph. -/
def cursorGlyph (y : Int) : List DrawCmd :=
  [DrawCmd.setFontSymbols, DrawCmd.drawGlyph 0 (y + 2) 0x23F5, DrawCmd.setFontMain]

/-- Line 168: `_y` of item `m` while the cursor is inside the first screen. -/
def staticY (offset_y : Int) (m : Nat) : Int :=
  wrap8 (offset_y + ((m : Int) + 1) * FONT_HEIGHT)

/-- Line 187: the row `m - (1 + menuCursor - menuItemsOnScreen)` of item `m` once
the cursor has left the first screen. -/
def slideRow (menuCursor menuItemsOnScreen : Int) (m : Nat) : Int :=
  (m : Int) - (1 + menuCursor - menuItemsOnScreen)

/-- Line 187: `_y` of item `m` once the cursor has left the first screen, the
row times `FONT_HEIGHT` stored in an `int8_t`. -/
def slideY (menuCursor menuItemsOnScreen : Int) (m : Nat) : Int :=
  wrap8 (slideRow menuCursor menuItemsOnScreen m * FONT_HEIGHT)

/-- Lines 166-204: the body of the loop for item `m`. -/
def showMenuItem (offset_y menuCursor menuItemsOnScreen : Int) (m : Nat) : List DrawCmd :=
  if menuCursor < menuItemsOnScreen then
    (if menuCursor = (m : Int) then cursorGlyph (staticY offset_y m) else []) ++
      [DrawCmd.setCursor (2 * FONT_WIDTH) (staticY offset_y m), DrawCmd.print m]
  else
    (if menuCursor = (m : Int) then cursorGlyph (slideY menuCursor menuItemsOnScreen m) else []) ++
      (if slideY menuCursor menuItemsOnScreen m > offset_y then
        [DrawCmd.setCursor (2 * FONT_WIDTH) (slideY menuCursor menuItemsOnScreen m),
          DrawCmd.print m]
      else [])

/-- Lines 162-207: `m` runs over `0 .. menu_len - 1`; `menu_len` is a `char`, at
most 127, so that `m++` does not overflow. The globals `menuCursor` and
`menuItemsOnScreen` (line 50, set to 4) are arguments. -/
def showMenu (menu_len offset_y menuCursor menuItemsOnScreen : Int) : List DrawCmd :=
  (List.range menu_len.toNat).flatMap (showMenuItem offset_y menuCursor menuItemsOnScreen)
    ++ [DrawCmd.sendBuffer]

/-- The items a command list prints, each with the `y` of the text cursor set
before it; `y0` is the text cursor at the start. -/
def printedAt : List DrawCmd → Int → List (Nat × Int)
  | [], _ => []
  | DrawCmd.setCursor _ y :: cs, _ => printedAt cs y
  | DrawCmd.print m :: cs, y0 => (m, y0) :: printedAt cs y0
  | _ :: cs, y0 => printedAt cs y0

/-! ## Runs -/

/-- Successive calls of `buttonEvent`, each on a button with its poll; the
results in call order and the final state. -/
def pollSeq : List (Nat × Poll) → State → List Bool × State
  | [], st => ([], st)
  | q :: qs, st =>
    ((buttonEvent q.1 q.2 st).1 :: (pollSeq qs (buttonEvent q.1 q.2 st).2).1,
      (pollSeq qs (buttonEvent q.1 q.2 st).2).2)

/-- Successive calls of `menuNavHandler` on one menu (as `loop` makes them);
`none` when a called entry does not return. -/
def navRun {ι : Type} (funcptr : List (ι → State → Option (Int × State)))
    (menu_len : Int) : List (NavTick ι) → State → Option State
  | [], st => some st
  | tk :: tks, st =>
    match menuNavHandler funcptr menu_len tk st with
    | none => none
    | some r => navRun funcptr menu_len tks r.2

/-! ## Sample inputs -/

/-- State at reset (lines 48-49). -/
def bootState : State := { menuCursor := 0, lastBounceTime := 0 }

/-- Every button pressed, read at time `t`. -/
def pollHeld (t : Nat) : Poll := { now := t, pins := fun _ => Level.LOW, stamp := t }

/-- No button pressed, read at time `t`. -/
def pollIdle (t : Nat) : Poll := { now := t, pins := fun _ => Level.HIGH, stamp := t }

/-- One button held down, polled at 200 ms and again at 400 ms. -/
def heldTwice : List (Nat × Poll) :=
  [(MENU_BTN_NEXT, pollHeld 200), (MENU_BTN_NEXT, pollHeld 400)]

/-- A tick of `menuNavHandler` at time `t` with the given levels of Next,
Previous and Select; the called entry gets no further input. -/
def navTick (t : Nat) (next prev sel : Level) : NavTick (List LeafTick) :=
  { now := t, next := next, prev := prev, sel := sel, callee := [], after := t }

/-- A visit of the sub-menu: Next, Previous, Next, Next, then Next with Select,
which lands on Back. -/
def subMenuVisit : List (NavTick (List LeafTick)) :=
  [navTick 200 Level.LOW Level.HIGH Level.HIGH,
    navTick 400 Level.HIGH Level.LOW Level.HIGH,
    navTick 600 Level.LOW Level.HIGH Level.HIGH,
    navTick 800 Level.LOW Level.HIGH Level.HIGH,
    navTick 1000 Level.LOW Level.HIGH Level.LOW]

/-- One iteration of a leaf loop at time `t` with only Previous pressed. -/
def prevTick (t : Nat) : LeafTick :=
  { sel := pollIdle t,
    next := pollIdle t,
    prev := { now := t, pins := fun b => if b = MENU_BTN_PREV then Level.LOW else Level.HIGH,
              stamp := t } }

/-- One iteration of a leaf loop at time `t` with only Next pressed. -/
def nextTick (t : Nat) : LeafTick :=
  { sel := pollIdle t,
    next := { now := t, pins := fun b => if b = MENU_BTN_NEXT then Level.LOW else Level.HIGH,
              stamp := t },
    prev := pollIdle t }

/-- The iterations of `n` Previous presses, 200 ms apart. -/
def prevPresses (n : Nat) : List LeafTick :=
  (List.range n).map (fun k => prevTick (200 * (k + 1)))

/-- The iterations of `n` Next presses, 200 ms apart. -/
def nextPresses (n : Nat) : List LeafTick :=
  (List.range n).map (fun k => nextTick (200 * (k + 1)))

/-- State when sub-item 2 has just been selected in the sub-menu. -/
def atSubItem2 : State := { menuCursor := 1, lastBounceTime := 0 }

/-- State when sub-item 1 has just been selected in the sub-menu. -/
def atSubItem1 : State := { menuCursor := 0, lastBounceTime := 0 }

/-- A tick of the main menu at time `t` with the given levels of Next,
Previous and Select; the called entry gets no further input. -/
def mainTick (t : Nat) (next prev sel : Level) : NavTick MainInput :=
  { now := t, next := next, prev := prev, sel := sel,
    callee := { leaf := [], sub := [] }, after := t }

/-- Two ticks of the main menu: Next alone, then Next and Previous together. -/
def mainMoves : List (NavTick MainInput) :=
  [mainTick 200 Level.LOW Level.HIGH Level.HIGH, mainTick 400 Level.LOW Level.LOW Level.HIGH]

/-- A tick of the sub-menu at 200 ms with Select alone pressed; the leaf it
enters sees Select accepted at 500 ms. -/
def leafVisitTick : NavTick (List LeafTick) :=
  { now := 200, next := Level.HIGH, prev := Level.HIGH, sel := Level.LOW,
    callee := [{ sel := pollHeld 500, next := pollIdle 500, prev := pollIdle 500 }],
    after := 200 }

/-- Three ticks of the sub-menu after a leaf visit: Next, Next, then Next with
Select, which lands on Back. -/
def afterLeaf : List (NavTick (List LeafTick)) :=
  [navTick 700 Level.LOW Level.HIGH Level.HIGH,
    navTick 900 Level.LOW Level.HIGH Level.HIGH,
    navTick 1100 Level.LOW Level.HIGH Level.LOW]

/-! ## Arithmetic lemmas -/

theorem wrap8_of_range (x : Int) (h1 : -128 ≤ x) (h2 : x ≤ 127) : wrap8 x = x := by
  unfold wrap8; omega

theorem wrap8_range (x : Int) : -128 ≤ wrap8 x ∧ wrap8 x ≤ 127 := by
  unfold wrap8; omega

theorem sinceBounce_millis (s t : Nat) (h : s ≤ t) (hd : t - s ≤ DEBOUNCE_DELAY) :
    sinceBounce (millis t) (millis s) = t - s := by
  unfold sinceBounce millis ULONG
  unfold DEBOUNCE_DELAY at hd
  omega

theorem cursorNext_range (menu_len c : Int) (h1 : 1 ≤ menu_len) (h2 : menu_len ≤ 127)
    (hc0 : 0 ≤ c) (hc1 : c < menu_len) :
    0 ≤ cursorNext menu_len c ∧ cursorNext menu_len c < menu_len := by
  unfold cursorNext wrap8
  split <;> omega

theorem cursorPrev_range (menu_len c : Int) (h2 : menu_len ≤ 127)
    (hc0 : 0 ≤ c) (hc1 : c < menu_len) :
    0 ≤ cursorPrev c ∧ cursorPrev c < menu_len := by
  unfold cursorPrev wrap8
  split <;> omega

theorem navCursor_range (menu_len : Int) (next prev : Level) (c : Int)
    (h1 : 1 ≤ menu_len) (h2 : menu_len ≤ 127) (hc0 : 0 ≤ c) (hc1 : c < menu_len) :
    0 ≤ navCursor menu_len next prev c ∧ navCursor menu_len next prev c < menu_len := by
  unfold navCursor
  have hn := cursorNext_range menu_len c h1 h2 hc0 hc1
  by_cases hnx : next = Level.LOW <;> by_cases hpv : prev = Level.LOW
  · simp only [hnx, hpv, if_true]
    exact cursorPrev_range menu_len _ h2 hn.1 hn.2
  · simp only [hnx, hpv, if_true, if_false]
    exact hn
  · simp only [hnx, hpv, if_true, if_false]
    exact cursorPrev_range menu_len _ h2 hc0 hc1
  · simp only [hnx, hpv, if_false]
    exact ⟨hc0, hc1⟩

/-! ## `buttonEvent` -/

theorem buttonEvent_cursor (b : Nat) (p : Poll) (st : State) :
    (buttonEvent b p st).2.menuCursor = st.menuCursor := by
  unfold buttonEvent
  split
  · split <;> rfl
  · rfl

theorem buttonEvent_closed (b : Nat) (p : Poll) (st : State)
    (h : sinceBounce (millis p.now) st.lastBounceTime ≤ DEBOUNCE_DELAY) :
    buttonEvent b p st = (false, st) := by
  unfold buttonEvent
  rw [if_neg (by omega)]

theorem buttonEvent_stamp (b : Nat) (p : Poll) (st : State)
    (h : (buttonEvent b p st).1 = true) :
    (buttonEvent b p st).2.lastBounceTime = millis p.stamp := by
  unfold buttonEvent at h ⊢
  split
  · split
    · rfl
    · simp_all
  · simp_all

theorem buttonEvent_rejected (b : Nat) (p : Poll) (st : State)
    (h : (buttonEvent b p st).1 = false) : (buttonEvent b p st).2 = st := by
  unfold buttonEvent at h ⊢
  split
  · split
    · simp_all
    · rfl
  · rfl

theorem pollSeq_closed (qs : List (Nat × Poll)) (st : State)
    (h : ∀ q ∈ qs, sinceBounce (millis q.2.now) st.lastBounceTime ≤ DEBOUNCE_DELAY) :
    pollSeq qs st = (List.replicate qs.length false, st) := by
  induction qs with
  | nil => rfl
  | cons q qs ih =>
    have hq := buttonEvent_closed q.1 q.2 st (h q (List.mem_cons_self _ _))
    have ih2 := ih (fun r hr => h r (List.mem_cons_of_mem _ hr))
    simp [pollSeq, hq, ih2, List.replicate_succ]

theorem pollSeq_after_accept (b : Nat) (p1 : Poll) (st : State)
    (later : List (Nat × Poll))
    (hacc : (buttonEvent b p1 st).1 = true)
    (hclock : p1.now ≤ p1.stamp)
    (hlater : ∀ q ∈ later, p1.stamp ≤ q.2.now ∧ q.2.now - p1.now ≤ DEBOUNCE_DELAY) :
    (pollSeq later (buttonEvent b p1 st).2).1 = List.replicate later.length false ∧
      (pollSeq ((b, p1) :: later) st).1.count true = 1 := by
  have hst := buttonEvent_stamp b p1 st hacc
  have hcl : ∀ q ∈ later,
      sinceBounce (millis q.2.now) (buttonEvent b p1 st).2.lastBounceTime ≤ DEBOUNCE_DELAY := by
    intro q hq
    obtain ⟨h1, h2⟩ := hlater q hq
    rw [hst, sinceBounce_millis p1.stamp q.2.now h1 (by omega)]
    omega
  have hrun := pollSeq_closed later _ hcl
  refine ⟨by rw [hrun], ?_⟩
  simp [pollSeq, hacc, hrun, List.count_replicate]

/-- C3. Debounce suppression: once a `buttonEvent` poll `p1` has returned true,
every later poll (of any button, at any level) made on a clock that has not
run backwards and no more than `DEBOUNCE_DELAY` ms after `p1` returns false, so
the sequence holds exactly one accepted press. -/
theorem buttonEvent_debounce_suppression (b : Nat) (p1 : Poll) (st : State)
    (later : List (Nat × Poll))
    (hacc : (buttonEvent b p1 st).1 = true)
    (hclock : p1.now ≤ p1.stamp)
    (hlater : ∀ q ∈ later, p1.stamp ≤ q.2.now ∧ q.2.now - p1.now ≤ DEBOUNCE_DELAY) :
    (pollSeq later (buttonEvent b p1 st).2).1 = List.replicate later.length false ∧
      (pollSeq ((b, p1) :: later) st).1.count true = 1 :=
  pollSeq_after_accept b p1 st later hacc hclock hlater

/-- C3, at a concrete input: Next accepted at 200 ms, Select and Next polled
50 ms later are both rejected. -/
theorem buttonEvent_debounce_suppression_witness :
    (pollSeq [(MENU_BTN_SEL, pollHeld 250), (MENU_BTN_NEXT, pollHeld 250)]
        (buttonEvent MENU_BTN_NEXT (pollHeld 200) bootState).2).1 = [false, false] ∧
      (pollSeq [(MENU_BTN_NEXT, pollHeld 200), (MENU_BTN_SEL, pollHeld 250),
        (MENU_BTN_NEXT, pollHeld 250)] bootState).1.count true = 1 :=
  buttonEvent_debounce_suppression MENU_BTN_NEXT (pollHeld 200) bootState
    [(MENU_BTN_SEL, pollHeld 250), (MENU_BTN_NEXT, pollHeld 250)]
    (by decide) (by decide) (by decide)

/-- C8 as stated fails: a button held down and polled at 200 ms and at 400 ms
is reported pressed by both polls. -/
theorem buttonEvent_held_repeats :
    (∀ q ∈ heldTwice, q.2.pins q.1 = Level.LOW) ∧
      (pollSeq heldTwice bootState).1 = [true, true] ∧
      ¬ ((pollSeq heldTwice bootState).1.count true ≤ 1) := by
  decide

theorem pollSeq_window_count (b : Nat) (ps : List Poll) (st : State)
    (hclock : ∀ p ∈ ps, p.now ≤ p.stamp)
    (hwin : ps.Pairwise (fun p q => p.stamp ≤ q.now ∧ q.now - p.now ≤ DEBOUNCE_DELAY)) :
    (pollSeq (ps.map (fun p => (b, p))) st).1.count true ≤ 1 := by
  induction ps generalizing st with
  | nil => simp [pollSeq]
  | cons p ps ih =>
    rw [List.pairwise_cons] at hwin
    cases hacc : (buttonEvent b p st).1 with
    | true =>
      have h := (pollSeq_after_accept b p st (ps.map (fun q => (b, q))) hacc
        (hclock p (List.mem_cons_self _ _)) (by
          intro q hq
          rw [List.mem_map] at hq
          obtain ⟨r, hr, rfl⟩ := hq
          exact hwin.1 r hr)).2
      simpa using h.le
    | false =>
      have hrej := buttonEvent_rejected b p st hacc
      have := ih st (fun q hq => hclock q (List.mem_cons_of_mem _ hq)) hwin.2
      simpa [pollSeq, hacc, hrej] using this

theorem sinceBounce_millis_long (s t : Nat) (h : s ≤ t) (hd : t - s < ULONG) :
    sinceBounce (millis t) (millis s) = t - s := by
  unfold sinceBounce millis
  unfold ULONG at hd ⊢
  omega

theorem buttonEvent_after_window (b : Nat) (p q : Poll) (st : State)
    (hacc : (buttonEvent b p st).1 = true)
    (hafter : p.stamp ≤ q.now)
    (hlong : DEBOUNCE_DELAY < q.now - p.stamp)
    (hwrap : q.now - p.stamp < ULONG) :
    (buttonEvent b q (buttonEvent b p st).2).1 = true ↔ q.pins b = Level.LOW := by
  have hst := buttonEvent_stamp b p st hacc
  have hgate : sinceBounce (millis q.now) (buttonEvent b p st).2.lastBounceTime
      > DEBOUNCE_DELAY := by
    rw [hst, sinceBounce_millis_long p.stamp q.now hafter hwrap]
    exact hlong
  rw [buttonEvent, if_pos hgate]
  by_cases hl : q.pins b = Level.LOW
  · simp [hl]
  · simp [hl]

/-- C8, amended. The debounce window, not the press, limits the reports. For
polls of one button made in order on a clock that does not run backwards, any
two of them no more than `DEBOUNCE_DELAY` ms apart, at most one poll returns
true, whatever the levels read (in particular when the button stays held down).
A poll that finds `lastBounceTime` at the stamp of an accepted poll, more than
`DEBOUNCE_DELAY` ms and less than `2^32` ms after that stamp, returns true
exactly when the level read is active, so a button held down is reported again. -/
theorem buttonEvent_once_per_window (b : Nat) (st : State) :
    (∀ ps : List Poll, (∀ p ∈ ps, p.now ≤ p.stamp) →
        ps.Pairwise (fun p q => p.stamp ≤ q.now ∧ q.now - p.now ≤ DEBOUNCE_DELAY) →
        (pollSeq (ps.map (fun p => (b, p))) st).1.count true ≤ 1) ∧
      (∀ p q : Poll, (buttonEvent b p st).1 = true → p.stamp ≤ q.now →
        DEBOUNCE_DELAY < q.now - p.stamp → q.now - p.stamp < ULONG →
        ((buttonEvent b q (buttonEvent b p st).2).1 = true ↔ q.pins b = Level.LOW)) :=
  ⟨fun ps hclock hwin => pollSeq_window_count b ps st hclock hwin,
    fun p q hacc hafter hlong hwrap => buttonEvent_after_window b p q st hacc hafter hlong hwrap⟩

/-- C8 amended, at a concrete input: a button held down and polled at 200, 250
and 300 ms is reported once; held down and polled at 200 and 301 ms it is
reported by both polls. -/
theorem buttonEvent_once_per_window_witness :
    (pollSeq ([pollHeld 200, pollHeld 250, pollHeld 300].map
        (fun p => (MENU_BTN_NEXT, p))) bootState).1.count true ≤ 1 ∧
      (buttonEvent MENU_BTN_NEXT (pollHeld 301)
        (buttonEvent MENU_BTN_NEXT (pollHeld 200) bootState).2).1 = true :=
  ⟨(buttonEvent_once_per_window MENU_BTN_NEXT bootState).1
      [pollHeld 200, pollHeld 250, pollHeld 300] (by decide) (by decide),
    ((buttonEvent_once_per_window MENU_BTN_NEXT bootState).2 (pollHeld 200) (pollHeld 301)
      (by decide) (by decide) (by decide) (by decide)).mpr (by decide)⟩

/-! ## The called entries hand the cursor back -/

theorem leafPoll_cursor (tk : LeafTick) (st : State) :
    (leafPoll tk st).2.menuCursor = st.menuCursor := by
  unfold leafPoll
  dsimp only
  split_ifs <;> simp [buttonEvent_cursor]

theorem subMenuItem1_loop_cursor (tks : List LeafTick) (st : State) (v : Item1Vars) :
    (subMenuItem1_loop tks st v).2.1.menuCursor = st.menuCursor := by
  induction tks generalizing st v with
  | nil => rfl
  | cons tk tks ih =>
    unfold subMenuItem1_loop
    split <;> simp [ih, leafPoll_cursor]

theorem subMenuItem2_loop_cursor (tks : List LeafTick) (st : State) (v : Item2Vars) :
    (subMenuItem2_loop tks st v).2.1.menuCursor = st.menuCursor := by
  induction tks generalizing st v with
  | nil => rfl
  | cons tk tks ih =>
    unfold subMenuItem2_loop
    split <;> simp [ih, leafPoll_cursor]

theorem subMenuItem3_loop_cursor (tks : List LeafTick) (st : State) :
    (subMenuItem3_loop tks st).1.menuCursor = st.menuCursor := by
  induction tks generalizing st with
  | nil => rfl
  | cons tk tks ih =>
    unfold subMenuItem3_loop
    split <;> simp [ih, leafPoll_cursor]

theorem menuItem_loop_cursor (tks : List LeafTick) (st : State) :
    (menuItem_loop tks st).1.menuCursor = st.menuCursor := by
  induction tks generalizing st with
  | nil => rfl
  | cons tk tks ih =>
    unfold menuItem_loop
    split <;> simp [ih, buttonEvent_cursor]

theorem subMenuItem1_result (inp : List LeafTick) (st : State) (r : Int) (st1 : State)
    (h : subMenuItem1 inp st = some (r, st1)) :
    r = st.menuCursor ∧ st1.menuCursor = st.menuCursor := by
  unfold subMenuItem1 at h
  dsimp only at h
  have hc := subMenuItem1_loop_cursor inp st item1Init
  split at h
  · simp only [Option.some.injEq, Prod.mk.injEq] at h
    obtain ⟨h1, h2⟩ := h
    subst h1 h2
    exact ⟨hc, hc⟩
  · exact absurd h (by simp)

theorem subMenuItem2_result (inp : List LeafTick) (st : State) (r : Int) (st1 : State)
    (h : subMenuItem2 inp st = some (r, st1)) :
    r = st.menuCursor ∧ st1.menuCursor = st.menuCursor := by
  unfold subMenuItem2 at h
  dsimp only at h
  have hc := subMenuItem2_loop_cursor inp st item2Init
  split at h
  · simp only [Option.some.injEq, Prod.mk.injEq] at h
    obtain ⟨h1, h2⟩ := h
    subst h1 h2
    exact ⟨hc, hc⟩
  · exact absurd h (by simp)

theorem subMenuItem3_result (inp : List LeafTick) (st : State) (r : Int) (st1 : State)
    (h : subMenuItem3 inp st = some (r, st1)) :
    r = st.menuCursor ∧ st1.menuCursor = st.menuCursor := by
  unfold subMenuItem3 at h
  dsimp only at h
  have hc := subMenuItem3_loop_cursor inp st
  split at h
  · simp only [Option.some.injEq, Prod.mk.injEq] at h
    obtain ⟨h1, h2⟩ := h
    subst h1 h2
    exact ⟨hc, hc⟩
  · exact absurd h (by simp)

theorem menuItem1_result (inp : List LeafTick) (st : State) (r : Int) (st1 : State)
    (h : menuItem1 inp st = some (r, st1)) :
    r = st.menuCursor ∧ st1.menuCursor = st.menuCursor := by
  unfold menuItem1 at h
  dsimp only at h
  have hc := menuItem_loop_cursor inp st
  split at h
  · simp only [Option.some.injEq, Prod.mk.injEq] at h
    obtain ⟨h1, h2⟩ := h
    subst h1 h2
    exact ⟨hc, hc⟩
  · exact absurd h (by simp)

theorem menuItem2_result (inp : List LeafTick) (st : State) (r : Int) (st1 : State)
    (h : menuItem2 inp st = some (r, st1)) :
    r = st.menuCursor ∧ st1.menuCursor = st.menuCursor := by
  unfold menuItem2 at h
  dsimp only at h
  have hc := menuItem_loop_cursor inp st
  split at h
  · simp only [Option.some.injEq, Prod.mk.injEq] at h
    obtain ⟨h1, h2⟩ := h
    subst h1 h2
    exact ⟨hc, hc⟩
  · exact absurd h (by simp)

theorem subMenu_result (inp : List (NavTick (List LeafTick))) (st : State) (r : Int)
    (st1 : State) (hlo : -128 ≤ st.menuCursor) (hhi : st.menuCursor ≤ 127)
    (h : subMenu inp st = some (r, st1)) :
    st1.menuCursor = st.menuCursor ∧ r = st.menuCursor ∧
      ∃ inner : State, subMenu_loop inp { st with menuCursor := 0 } = some inner ∧
        st1 = { inner with menuCursor := st.menuCursor } := by
  unfold subMenu at h
  dsimp only at h
  have hw : wrap8 (wrap8 st.menuCursor) = st.menuCursor := by
    rw [wrap8_of_range _ hlo hhi, wrap8_of_range _ hlo hhi]
  split at h
  · exact absurd h (by simp)
  · rename_i inner hin
    simp only [Option.some.injEq, Prod.mk.injEq, hw] at h
    obtain ⟨h1, h2⟩ := h
    subst h1 h2
    exact ⟨rfl, rfl, inner, hin, rfl⟩

theorem subMenu_funcs_keep_cursor :
    ∀ f ∈ subMenu_funcs, ∀ (inp : List LeafTick) (s : State) (r : Int) (s1 : State),
      -128 ≤ s.menuCursor → s.menuCursor ≤ 127 →
      f inp s = some (r, s1) → s1.menuCursor = s.menuCursor := by
  intro f hf inp s r s1 _ _ h
  simp only [subMenu_funcs, List.mem_cons, List.mem_singleton, List.not_mem_nil, or_false] at hf
  rcases hf with rfl | rfl | rfl | rfl
  · exact (subMenuItem1_result inp s r s1 h).2
  · exact (subMenuItem2_result inp s r s1 h).2
  · exact (subMenuItem3_result inp s r s1 h).2
  · simp only [navBack, Option.some.injEq, Prod.mk.injEq] at h
    rw [← h.2]

theorem main_funcs_keep_cursor :
    ∀ f ∈ main_funcs, ∀ (inp : MainInput) (s : State) (r : Int) (s1 : State),
      -128 ≤ s.menuCursor → s.menuCursor ≤ 127 →
      f inp s = some (r, s1) → s1.menuCursor = s.menuCursor := by
  intro f hf inp s r s1 hlo hhi h
  simp only [main_funcs, List.mem_cons, List.mem_singleton, List.not_mem_nil, or_false] at hf
  rcases hf with rfl | rfl | rfl
  · exact (menuItem1_result inp.leaf s r s1 h).2
  · exact (menuItem2_result inp.leaf s r s1 h).2
  · exact (subMenu_result inp.sub s r s1 hlo hhi h).1

theorem callEntry_keep_cursor {ι : Type} (funcptr : List (ι → State → Option (Int × State)))
    (hf : ∀ f ∈ funcptr, ∀ (inp : ι) (s : State) (r : Int) (s1 : State),
      -128 ≤ s.menuCursor → s.menuCursor ≤ 127 →
      f inp s = some (r, s1) → s1.menuCursor = s.menuCursor)
    (i : Int) (inp : ι) (s : State) (r : Int) (s1 : State)
    (hlo : -128 ≤ s.menuCursor) (hhi : s.menuCursor ≤ 127)
    (h : callEntry funcptr i inp s = some (r, s1)) : s1.menuCursor = s.menuCursor := by
  unfold callEntry at h
  split at h
  · exact absurd h (by simp)
  · split at h
    · exact absurd h (by simp)
    · rename_i f hget
      exact hf f (List.get?_mem hget) inp s r s1 hlo hhi h

theorem menuNavHandler_range {ι : Type} (funcptr : List (ι → State → Option (Int × State)))
    (menu_len : Int) (h1 : 1 ≤ menu_len) (h2 : menu_len ≤ 127)
    (hf : ∀ f ∈ funcptr, ∀ (inp : ι) (s : State) (r : Int) (s1 : State),
      -128 ≤ s.menuCursor → s.menuCursor ≤ 127 →
      f inp s = some (r, s1) → s1.menuCursor = s.menuCursor)
    (tk : NavTick ι) (st : State) (r : Int) (st1 : State)
    (hc0 : 0 ≤ st.menuCursor) (hc1 : st.menuCursor < menu_len)
    (h : menuNavHandler funcptr menu_len tk st = some (r, st1)) :
    0 ≤ st1.menuCursor ∧ st1.menuCursor < menu_len := by
  have hn := navCursor_range menu_len tk.next tk.prev st.menuCursor h1 h2 hc0 hc1
  unfold menuNavHandler at h
  split at h
  · simp only at h
    split at h
    · have := callEntry_keep_cursor funcptr hf _ _ _ _ _ (by simp; omega) (by simp; omega) h
      rw [this]
      exact hn
    · simp only [Option.some.injEq, Prod.mk.injEq] at h
      rw [← h.2]
      exact hn
  · simp only [Option.some.injEq, Prod.mk.injEq] at h
    rw [← h.2]
    exact ⟨hc0, hc1⟩

/-! ## Cursor clamping and the sub-menu -/

/-- C1. Cursor clamping: for every menu length from 1 up to 127 (the largest
`char`), every starting cursor in `[0, menu_len - 1]` and every sequence of
`menuNavHandler` calls, with any button levels and any time stamps, whose
called entries hand the cursor back as they found it, the cursor lies in
`[0, menu_len - 1]` after the sequence, and so does the cursor the next call
writes at lines 122-134, whatever Next and Previous read. -/
theorem menuNavHandler_cursor_clamped {ι : Type}
    (funcptr : List (ι → State → Option (Int × State)))
    (menu_len : Int) (ticks : List (NavTick ι)) (st st1 : State)
    (h1 : 1 ≤ menu_len) (h2 : menu_len ≤ 127)
    (hc0 : 0 ≤ st.menuCursor) (hc1 : st.menuCursor ≤ menu_len - 1)
    (hf : ∀ f ∈ funcptr, ∀ (inp : ι) (s : State) (r : Int) (s1 : State),
      -128 ≤ s.menuCursor → s.menuCursor ≤ 127 →
      f inp s = some (r, s1) → s1.menuCursor = s.menuCursor)
    (hrun : navRun funcptr menu_len ticks st = some st1) :
    (0 ≤ st1.menuCursor ∧ st1.menuCursor ≤ menu_len - 1) ∧
      ∀ next prev : Level,
        0 ≤ navCursor menu_len next prev st1.menuCursor ∧
          navCursor menu_len next prev st1.menuCursor ≤ menu_len - 1 := by
  have key : 0 ≤ st1.menuCursor ∧ st1.menuCursor < menu_len := by
    induction ticks generalizing st with
    | nil =>
      simp only [navRun, Option.some.injEq] at hrun
      subst hrun
      exact ⟨hc0, by omega⟩
    | cons tk tks ih =>
      unfold navRun at hrun
      split at hrun
      · exact absurd hrun (by simp)
      · rename_i r hr
        have := menuNavHandler_range funcptr menu_len h1 h2 hf tk st r.1 r.2 hc0 (by omega) hr
        exact ih r.2 this.1 (by omega) hrun
  refine ⟨⟨key.1, by omega⟩, fun next prev => ?_⟩
  have := navCursor_range menu_len next prev st1.menuCursor h1 h2 key.1 key.2
  exact ⟨this.1, by omega⟩

/-- C1, at a concrete input: the main menu with the cursor on its last item;
Next alone leaves it at 2, Next and Previous in one tick bring it to 1. -/
theorem menuNavHandler_cursor_clamped_witness :
    navRun main_funcs MAIN_MENU_LENGTH mainMoves { menuCursor := 2, lastBounceTime := 0 }
        = some { menuCursor := 1, lastBounceTime := 400 } ∧
      0 ≤ State.menuCursor { menuCursor := 1, lastBounceTime := 400 } ∧
      State.menuCursor { menuCursor := 1, lastBounceTime := 400 } ≤ MAIN_MENU_LENGTH - 1 :=
  ⟨by decide,
    (menuNavHandler_cursor_clamped main_funcs MAIN_MENU_LENGTH mainMoves
      { menuCursor := 2, lastBounceTime := 0 } { menuCursor := 1, lastBounceTime := 400 }
      (by decide) (by decide) (by decide) (by decide) main_funcs_keep_cursor (by decide)).1⟩

/-- C2. Stack discipline of `subMenu`: for every parent cursor (an `int8_t`) and
every input, if `subMenu` returns, then its loop was run from cursor 0 and the
cursor it leaves, which is also the value it returns, is the parent cursor. -/
theorem subMenu_restores_cursor (inp : List (NavTick (List LeafTick))) (st : State)
    (r : Int) (st1 : State) (hlo : -128 ≤ st.menuCursor) (hhi : st.menuCursor ≤ 127)
    (h : subMenu inp st = some (r, st1)) :
    st1.menuCursor = st.menuCursor ∧ r = st.menuCursor ∧
      ∃ inner : State, subMenu_loop inp { st with menuCursor := 0 } = some inner ∧
        st1 = { inner with menuCursor := st.menuCursor } :=
  subMenu_result inp st r st1 hlo hhi h

/-- C2, at a concrete input: the sub-menu entered at cursor 2, the cursor moved
inside up to Back, and the root cursor is 2 again. -/
theorem subMenu_restores_cursor_witness :
    subMenu subMenuVisit { menuCursor := 2, lastBounceTime := 0 }
        = some (2, { menuCursor := 2, lastBounceTime := 800 }) ∧
      State.menuCursor { menuCursor := 2, lastBounceTime := 800 }
        = State.menuCursor { menuCursor := 2, lastBounceTime := 0 } :=
  ⟨by decide,
    (subMenu_restores_cursor subMenuVisit { menuCursor := 2, lastBounceTime := 0 } 2
      { menuCursor := 2, lastBounceTime := 800 } (by decide) (by decide) (by decide)).1⟩

theorem callEntry_sub0 (inp : List LeafTick) (s : State) :
    callEntry subMenu_funcs 0 inp s = subMenuItem1 inp s := rfl

theorem callEntry_sub1 (inp : List LeafTick) (s : State) :
    callEntry subMenu_funcs 1 inp s = subMenuItem2 inp s := rfl

theorem callEntry_sub2 (inp : List LeafTick) (s : State) :
    callEntry subMenu_funcs 2 inp s = subMenuItem3 inp s := rfl

theorem callEntry_sub3 (inp : List LeafTick) (s : State) :
    callEntry subMenu_funcs 3 inp s = some (-1, s) := rfl

theorem leafEvents_cons (tk : LeafTick) (tks : List LeafTick) (st : State) :
    leafEvents (tk :: tks) st
      = if (leafPoll tk st).1 = LeafEvent.exit then [LeafEvent.exit]
        else (leafPoll tk st).1 :: leafEvents tks (leafPoll tk st).2 := by
  rw [leafEvents]
  cases h : (leafPoll tk st).1 <;> simp

theorem subMenuItem1_loop_exits (tks : List LeafTick) (st : State) (v : Item1Vars)
    (h : LeafEvent.exit ∈ leafEvents tks st) : (subMenuItem1_loop tks st v).2.2 = true := by
  induction tks generalizing st v with
  | nil => simp [leafEvents] at h
  | cons tk tks ih =>
    rw [leafEvents_cons] at h
    unfold subMenuItem1_loop
    cases he : (leafPoll tk st).1 <;> simp only [he] at h ⊢ <;> simp at h
    · exact ih _ _ h
    · exact ih _ _ h
    · exact ih _ _ h

theorem subMenuItem2_loop_exits (tks : List LeafTick) (st : State) (v : Item2Vars)
    (h : LeafEvent.exit ∈ leafEvents tks st) : (subMenuItem2_loop tks st v).2.2 = true := by
  induction tks generalizing st v with
  | nil => simp [leafEvents] at h
  | cons tk tks ih =>
    rw [leafEvents_cons] at h
    unfold subMenuItem2_loop
    cases he : (leafPoll tk st).1 <;> simp only [he] at h ⊢ <;> simp at h
    · exact ih _ _ h
    · exact ih _ _ h
    · exact ih _ _ h

theorem subMenuItem3_loop_exits (tks : List LeafTick) (st : State)
    (h : LeafEvent.exit ∈ leafEvents tks st) : (subMenuItem3_loop tks st).2 = true := by
  induction tks generalizing st with
  | nil => simp [leafEvents] at h
  | cons tk tks ih =>
    rw [leafEvents_cons] at h
    unfold subMenuItem3_loop
    cases he : (leafPoll tk st).1 <;> simp only [he] at h ⊢ <;> simp at h
    · exact ih _ h
    · exact ih _ h
    · exact ih _ h

theorem leaf_call (c : Int) (hc0 : 0 ≤ c) (hc2 : c ≤ 2) (inp : List LeafTick) (s : State)
    (hs : s.menuCursor = c) :
    (∀ (r : Int) (s1 : State), callEntry subMenu_funcs c inp s = some (r, s1) → r = c) ∧
      (LeafEvent.exit ∈ leafEvents inp s →
        ∃ s1, callEntry subMenu_funcs c inp s = some (c, s1)) := by
  have hcases : c = 0 ∨ c = 1 ∨ c = 2 := by omega
  rcases hcases with rfl | rfl | rfl
  · rw [callEntry_sub0]
    refine ⟨fun r s1 h => ?_, fun hex => ?_⟩
    · rw [(subMenuItem1_result inp s r s1 h).1, hs]
    · have := subMenuItem1_loop_exits inp s item1Init hex
      have hc := subMenuItem1_loop_cursor inp s item1Init
      exact ⟨(subMenuItem1_loop inp s item1Init).2.1, by simp [subMenuItem1, this, hc, hs]⟩
  · rw [callEntry_sub1]
    refine ⟨fun r s1 h => ?_, fun hex => ?_⟩
    · rw [(subMenuItem2_result inp s r s1 h).1, hs]
    · have := subMenuItem2_loop_exits inp s item2Init hex
      have hc := subMenuItem2_loop_cursor inp s item2Init
      exact ⟨(subMenuItem2_loop inp s item2Init).2.1, by simp [subMenuItem2, this, hc, hs]⟩
  · rw [callEntry_sub2]
    refine ⟨fun r s1 h => ?_, fun hex => ?_⟩
    · rw [(subMenuItem3_result inp s r s1 h).1, hs]
    · have := subMenuItem3_loop_exits inp s hex
      have hc := subMenuItem3_loop_cursor inp s
      exact ⟨(subMenuItem3_loop inp s).1, by simp [subMenuItem3, this, hc, hs]⟩

theorem menuNavHandler_sub_cases (tk : NavTick (List LeafTick)) (st : State)
    (h0 : 0 ≤ st.menuCursor) (h3 : st.menuCursor ≤ 3) :
    ((∃ st1, menuNavHandler subMenu_funcs SUB_MENU_LENGTH tk st = some (-1, st1)) ↔
        (sinceBounce (millis tk.now) st.lastBounceTime > DEBOUNCE_DELAY ∧ tk.sel = Level.LOW ∧
          navCursor SUB_MENU_LENGTH tk.next tk.prev st.menuCursor = 3)) ∧
      (¬ (sinceBounce (millis tk.now) st.lastBounceTime > DEBOUNCE_DELAY ∧ tk.sel = Level.LOW) →
        ∃ st1, menuNavHandler subMenu_funcs SUB_MENU_LENGTH tk st = some (-2, st1)) ∧
      ((sinceBounce (millis tk.now) st.lastBounceTime > DEBOUNCE_DELAY ∧ tk.sel = Level.LOW ∧
          navCursor SUB_MENU_LENGTH tk.next tk.prev st.menuCursor ≠ 3) →
        (∀ (r : Int) (st1 : State),
            menuNavHandler subMenu_funcs SUB_MENU_LENGTH tk st = some (r, st1) →
              r = navCursor SUB_MENU_LENGTH tk.next tk.prev st.menuCursor ∧ 0 ≤ r ∧ r ≤ 2) ∧
          (LeafEvent.exit ∈ leafEvents tk.callee
              { st with menuCursor := navCursor SUB_MENU_LENGTH tk.next tk.prev st.menuCursor } →
            ∃ st1, menuNavHandler subMenu_funcs SUB_MENU_LENGTH tk st
              = some (navCursor SUB_MENU_LENGTH tk.next tk.prev st.menuCursor, st1))) := by
  have hn := navCursor_range SUB_MENU_LENGTH tk.next tk.prev st.menuCursor
    (by decide) (by decide) h0 (by unfold SUB_MENU_LENGTH; omega)
  unfold menuNavHandler
  generalize navCursor SUB_MENU_LENGTH tk.next tk.prev st.menuCursor = c at hn ⊢
  unfold SUB_MENU_LENGTH at hn
  by_cases hopen : sinceBounce (millis tk.now) st.lastBounceTime > DEBOUNCE_DELAY
  · by_cases hsel : tk.sel = Level.LOW
    · simp only [hopen, hsel, if_true, true_and, not_true_eq_false, false_implies]
      by_cases hc3 : c = 3
      · subst hc3
        rw [callEntry_sub3]
        simp
      · have hleaf := leaf_call c hn.1 (by omega) tk.callee { st with menuCursor := c } rfl
        refine ⟨?_, fun _ => ⟨fun r st1 h => ?_, hleaf.2⟩⟩
        · constructor
          · rintro ⟨st1, h⟩
            have := hleaf.1 _ _ h
            omega
          · intro h
            exact absurd h hc3
        · have := hleaf.1 r st1 h
          omega
    · simp [hopen, hsel]
  · simp [hopen]

theorem subMenu_loop_cons_back (tk : NavTick (List LeafTick))
    (tks : List (NavTick (List LeafTick))) (st : State)
    (hb : sinceBounce (millis tk.now) st.lastBounceTime > DEBOUNCE_DELAY ∧ tk.sel = Level.LOW ∧
      navCursor SUB_MENU_LENGTH tk.next tk.prev st.menuCursor = 3) :
    subMenu_loop (tk :: tks) st = some { st with menuCursor := 3 } := by
  obtain ⟨hopen, hsel, hc⟩ := hb
  have hm : menuNavHandler subMenu_funcs SUB_MENU_LENGTH tk st
      = some (-1, { st with menuCursor := 3 }) := by
    unfold menuNavHandler
    rw [if_pos hopen]
    simp only [hsel, if_true, hc]
    exact callEntry_sub3 _ _
  rw [subMenu_loop, hm]
  simp

theorem subMenu_loop_cons_continue (tk : NavTick (List LeafTick))
    (tks : List (NavTick (List LeafTick))) (st : State)
    (h0 : 0 ≤ st.menuCursor) (h3 : st.menuCursor ≤ 3)
    (hb : ¬ (sinceBounce (millis tk.now) st.lastBounceTime > DEBOUNCE_DELAY ∧
      tk.sel = Level.LOW ∧ navCursor SUB_MENU_LENGTH tk.next tk.prev st.menuCursor = 3))
    (r : Int) (st1 : State)
    (hm : menuNavHandler subMenu_funcs SUB_MENU_LENGTH tk st = some (r, st1)) :
    r ≠ -1 ∧ subMenu_loop (tk :: tks) st = subMenu_loop tks st1 := by
  have hr : r ≠ -1 := by
    intro hr
    subst hr
    exact hb ((menuNavHandler_sub_cases tk st h0 h3).1.mp ⟨st1, hm⟩)
  refine ⟨hr, ?_⟩
  rw [subMenu_loop, hm]
  simp [hr]

theorem subMenu_loop_exit (tks : List (NavTick (List LeafTick))) (st st2 : State)
    (h0 : 0 ≤ st.menuCursor) (h3 : st.menuCursor ≤ 3)
    (h : subMenu_loop tks st = some st2) :
    ∃ (pre : List (NavTick (List LeafTick))) (tk : NavTick (List LeafTick))
      (post : List (NavTick (List LeafTick))) (s : State),
      tks = pre ++ tk :: post ∧ subMenu_loop pre st = none ∧
        navRun subMenu_funcs SUB_MENU_LENGTH pre st = some s ∧
        sinceBounce (millis tk.now) s.lastBounceTime > DEBOUNCE_DELAY ∧
        tk.sel = Level.LOW ∧
        navCursor SUB_MENU_LENGTH tk.next tk.prev s.menuCursor = 3 ∧
        st2 = { s with menuCursor := 3 } := by
  induction tks generalizing st with
  | nil => simp [subMenu_loop] at h
  | cons tk tks ih =>
    by_cases hb : sinceBounce (millis tk.now) st.lastBounceTime > DEBOUNCE_DELAY ∧
        tk.sel = Level.LOW ∧ navCursor SUB_MENU_LENGTH tk.next tk.prev st.menuCursor = 3
    · rw [subMenu_loop_cons_back tk tks st hb] at h
      simp only [Option.some.injEq] at h
      exact ⟨[], tk, tks, st, rfl, rfl, rfl, hb.1, hb.2.1, hb.2.2, h.symm⟩
    · cases hm : menuNavHandler subMenu_funcs SUB_MENU_LENGTH tk st with
      | none =>
        rw [subMenu_loop, hm] at h
        simp at h
      | some res =>
        obtain ⟨r, st1⟩ := res
        have hcont := subMenu_loop_cons_continue tk tks st h0 h3 hb r st1 hm
        rw [hcont.2] at h
        have hrange := menuNavHandler_range subMenu_funcs SUB_MENU_LENGTH (by decide)
          (by decide) subMenu_funcs_keep_cursor tk st r st1 h0
          (by unfold SUB_MENU_LENGTH; omega) hm
        unfold SUB_MENU_LENGTH at hrange
        obtain ⟨pre, tk1, post, s, hsplit, hnone, hrun, hopen, hsel, hc, hst2⟩ :=
          ih st1 hrange.1 (by omega) h
        refine ⟨tk :: pre, tk1, post, s, by rw [hsplit]; rfl, ?_, ?_, hopen, hsel, hc, hst2⟩
        · rw [(subMenu_loop_cons_continue tk pre st h0 h3 hb r st1 hm).2]
          exact hnone
        · rw [navRun, hm]
          exact hrun

/-- C10. The sub-menu is left only through Back: for every cursor in `[0, 3]`,
every time stamp and all button levels, `menuNavHandler(subMenu_funcs,
SUB_MENU_LENGTH)` returns `-1` exactly when the debounce window is open, Select
is active and the cursor after the movement of that tick is 3 (Back); a tick
that is debounced or without Select returns `-2`; a selected leaf that returns
gives back its cursor, a value in `[0, 2]`, and it does return once its loop
sees an accepted Select. Accordingly the loop of `subMenu` ends at a tick that
selects Back, leaving the cursor at 3; after any other tick whose call returns
it goes on with the remaining ticks; and whenever it ends, it ends at the first
tick of its input that selects Back, every earlier tick having returned
without ending it. -/
theorem subMenu_left_only_by_back (tk : NavTick (List LeafTick))
    (tks : List (NavTick (List LeafTick))) (st : State)
    (h0 : 0 ≤ st.menuCursor) (h3 : st.menuCursor ≤ 3) :
    ((∃ st1, menuNavHandler subMenu_funcs SUB_MENU_LENGTH tk st = some (-1, st1)) ↔
        (sinceBounce (millis tk.now) st.lastBounceTime > DEBOUNCE_DELAY ∧ tk.sel = Level.LOW ∧
          navCursor SUB_MENU_LENGTH tk.next tk.prev st.menuCursor = 3)) ∧
      (¬ (sinceBounce (millis tk.now) st.lastBounceTime > DEBOUNCE_DELAY ∧ tk.sel = Level.LOW) →
        ∃ st1, menuNavHandler subMenu_funcs SUB_MENU_LENGTH tk st = some (-2, st1)) ∧
      ((sinceBounce (millis tk.now) st.lastBounceTime > DEBOUNCE_DELAY ∧ tk.sel = Level.LOW ∧
          navCursor SUB_MENU_LENGTH tk.next tk.prev st.menuCursor ≠ 3) →
        (∀ (r : Int) (st1 : State),
            menuNavHandler subMenu_funcs SUB_MENU_LENGTH tk st = some (r, st1) →
              r = navCursor SUB_MENU_LENGTH tk.next tk.prev st.menuCursor ∧ 0 ≤ r ∧ r ≤ 2) ∧
          (LeafEvent.exit ∈ leafEvents tk.callee
              { st with menuCursor := navCursor SUB_MENU_LENGTH tk.next tk.prev st.menuCursor } →
            ∃ st1, menuNavHandler subMenu_funcs SUB_MENU_LENGTH tk st
              = some (navCursor SUB_MENU_LENGTH tk.next tk.prev st.menuCursor, st1))) ∧
      ((sinceBounce (millis tk.now) st.lastBounceTime > DEBOUNCE_DELAY ∧ tk.sel = Level.LOW ∧
          navCursor SUB_MENU_LENGTH tk.next tk.prev st.menuCursor = 3) →
        subMenu_loop (tk :: tks) st = some { st with menuCursor := 3 }) ∧
      (¬ (sinceBounce (millis tk.now) st.lastBounceTime > DEBOUNCE_DELAY ∧ tk.sel = Level.LOW ∧
          navCursor SUB_MENU_LENGTH tk.next tk.prev st.menuCursor = 3) →
        ∀ (r : Int) (st1 : State),
          menuNavHandler subMenu_funcs SUB_MENU_LENGTH tk st = some (r, st1) →
            r ≠ -1 ∧ subMenu_loop (tk :: tks) st = subMenu_loop tks st1) ∧
      (∀ st2 : State, subMenu_loop (tk :: tks) st = some st2 →
        ∃ (pre : List (NavTick (List LeafTick))) (last : NavTick (List LeafTick))
          (post : List (NavTick (List LeafTick))) (s : State),
          tk :: tks = pre ++ last :: post ∧ subMenu_loop pre st = none ∧
            navRun subMenu_funcs SUB_MENU_LENGTH pre st = some s ∧
            sinceBounce (millis last.now) s.lastBounceTime > DEBOUNCE_DELAY ∧
            last.sel = Level.LOW ∧
            navCursor SUB_MENU_LENGTH last.next last.prev s.menuCursor = 3 ∧
            st2 = { s with menuCursor := 3 }) :=
  ⟨(menuNavHandler_sub_cases tk st h0 h3).1, (menuNavHandler_sub_cases tk st h0 h3).2.1,
    (menuNavHandler_sub_cases tk st h0 h3).2.2,
    fun hb => subMenu_loop_cons_back tk tks st hb,
    fun hb r st1 hm => subMenu_loop_cons_continue tk tks st h0 h3 hb r st1 hm,
    fun st2 h => subMenu_loop_exit (tk :: tks) st st2 h0 h3 h⟩

/-- C10, at a concrete input: Select on sub-item 1 enters the leaf, which
returns 0, and the loop goes on; three ticks later Next with Select lands on
Back and the loop ends with the cursor at 3. -/
theorem subMenu_left_only_by_back_witness :
    menuNavHandler subMenu_funcs SUB_MENU_LENGTH leafVisitTick bootState
        = some (0, { menuCursor := 0, lastBounceTime := 500 }) ∧
      subMenu_loop (leafVisitTick :: afterLeaf) bootState
        = subMenu_loop afterLeaf { menuCursor := 0, lastBounceTime := 500 } ∧
      subMenu_loop (leafVisitTick :: afterLeaf) bootState
        = some { menuCursor := 3, lastBounceTime := 900 } :=
  ⟨by decide,
    ((subMenu_left_only_by_back leafVisitTick afterLeaf bootState (by decide) (by decide)).2.2.2.2.1
      (by decide) 0 { menuCursor := 0, lastBounceTime := 500 } (by decide)).2,
    by decide⟩

/-! ## Leaf screens -/

theorem valNext_eq (v : Int) (h0 : 0 ≤ v) (h1 : v ≤ 600) : valNext v = min (v + 5) 600 := by
  unfold valNext wrapU16
  split <;> omega

theorem item2Refresh_val (v : Item2Vars) : (item2Refresh v).val = v.val := by
  unfold item2Refresh
  split <;> rfl

theorem item2Refresh_shown (v : Item2Vars) (x : Int) (hx : x ∈ (item2Refresh v).shown) :
    x ∈ v.shown ∨ x = v.val := by
  unfold item2Refresh at hx
  split at hx
  · simpa using hx
  · exact Or.inl hx

theorem subMenuItem2_next_run (tks : List LeafTick) (st : State) (v : Item2Vars)
    (hev : ∀ e ∈ leafEvents tks st, e = LeafEvent.next ∨ e = LeafEvent.idle)
    (h0 : 0 ≤ v.val) (h1 : v.val ≤ 600) (hs : ∀ x ∈ v.shown, x ≤ 600) :
    (subMenuItem2_loop tks st v).1.val
        = min (v.val + 5 * (((leafEvents tks st).count LeafEvent.next : Nat) : Int)) 600 ∧
      ∀ x ∈ (subMenuItem2_loop tks st v).1.shown, x ≤ 600 := by
  induction tks generalizing st v with
  | nil => simp [subMenuItem2_loop, leafEvents]; exact ⟨h1, hs⟩
  | cons tk tks ih =>
    rw [leafEvents_cons] at hev ⊢
    unfold subMenuItem2_loop
    cases he : (leafPoll tk st).1 <;> simp only [he] at hev ⊢
    · have := hev LeafEvent.exit (by simp)
      simp at this
    · have hv := valNext_eq v.val h0 h1
      have hrest : ∀ e ∈ leafEvents tks (leafPoll tk st).2,
          e = LeafEvent.next ∨ e = LeafEvent.idle := fun e hmem => hev e (by simp [hmem])
      have := ih (leafPoll tk st).2
        (item2Refresh { v with val := valNext v.val, refresh := true }) hrest
        (by rw [item2Refresh_val]; simp only; omega)
        (by rw [item2Refresh_val]; simp only; omega)
        (by
          intro x hx
          rcases item2Refresh_shown _ x hx with hx | hx
          · exact hs x hx
          · simp only at hx; omega)
      refine ⟨?_, this.2⟩
      rw [this.1, item2Refresh_val]
      simp only [reduceCtorEq, if_false, List.count_cons_self, Nat.cast_add, Nat.cast_one]
      omega
    · have := hev LeafEvent.prev (by simp)
      simp at this
    · have hrest : ∀ e ∈ leafEvents tks (leafPoll tk st).2,
          e = LeafEvent.next ∨ e = LeafEvent.idle := fun e hmem => hev e (by simp [hmem])
      have := ih (leafPoll tk st).2 (item2Refresh v) hrest
        (by rw [item2Refresh_val]; exact h0)
        (by rw [item2Refresh_val]; exact h1)
        (by
          intro x hx
          rcases item2Refresh_shown _ x hx with hx | hx
          · exact hs x hx
          · omega)
      refine ⟨?_, this.2⟩
      rw [this.1, item2Refresh_val]
      simp

/-- C6. Upper bound of the numeric leaf: for every `n` and every run of the loop
of `subMenuItem2` in which `n` Next presses are accepted and nothing else is
(iterations that accept no press may lie between them), the value is
`min (255 + 5 n) 600`, and no value printed on the way exceeds 600. -/
theorem subMenuItem2_next_saturates (tks : List LeafTick) (st : State) (n : Nat)
    (hev : ∀ e ∈ leafEvents tks st, e = LeafEvent.next ∨ e = LeafEvent.idle)
    (hn : (leafEvents tks st).count LeafEvent.next = n) :
    (subMenuItem2_loop tks st item2Init).1.val = min (255 + 5 * (n : Int)) 600 ∧
      ∀ x ∈ (subMenuItem2_loop tks st item2Init).1.shown, x ≤ 600 := by
  have := subMenuItem2_next_run tks st item2Init hev (by decide) (by decide)
    (by simp [item2Init])
  rw [hn] at this
  exact this

set_option maxRecDepth 100000 in
/-- C6, at a concrete input: 100 Next presses in a row leave the value at 600. -/
theorem subMenuItem2_next_saturates_witness :
    (leafEvents (nextPresses 100) atSubItem2).count LeafEvent.next = 100 ∧
      (subMenuItem2_loop (nextPresses 100) atSubItem2 item2Init).1.val = 600 :=
  ⟨by decide,
    (subMenuItem2_next_saturates (nextPresses 100) atSubItem2 100 (by decide) (by decide)).1⟩

set_option maxRecDepth 100000 in
/-- C5, at the failing input: 52 accepted Previous presses take the value of
`subMenuItem2` from 255 through 0 to 65531, not to `max (255 - 5 * 52) 0 = 0`,
and the wrapped value is printed. -/
theorem subMenuItem2_previous_wraps :
    leafEvents (prevPresses 52) atSubItem2 = List.replicate 52 LeafEvent.prev ∧
      (subMenuItem2_loop (prevPresses 51) atSubItem2 item2Init).1.val = 0 ∧
      (subMenuItem2_loop (prevPresses 52) atSubItem2 item2Init).1.val = 65531 ∧
      (subMenuItem2_loop (prevPresses 52) atSubItem2 item2Init).1.val
        ≠ max (255 - 5 * 52) 0 ∧
      (65531 : Int) ∈ (subMenuItem2_loop (prevPresses 52) atSubItem2 item2Init).1.shown := by
  decide

/-- C7, at the failing input: one accepted Previous press at `sel = 0` leaves
`sel = 255` in `subMenuItem1`, and the `options[sel]` then printed is read
outside the three labels. -/
theorem subMenuItem1_previous_wraps :
    leafEvents (prevPresses 1) atSubItem1 = [LeafEvent.prev] ∧
      (subMenuItem1_loop (prevPresses 1) atSubItem1 item1Init).1.sel = 255 ∧
      (subMenuItem1_loop (prevPresses 1) atSubItem1 item1Init).1.shown = [none] ∧
      selPrev 0 = 255 ∧ optionAt 255 = none := by
  decide

/-! ## Rendering -/

theorem printedAt_showMenuItem_static (offset_y menuCursor menuItemsOnScreen : Int) (m : Nat)
    (h : menuCursor < menuItemsOnScreen) (rest : List DrawCmd) (y0 : Int) :
    printedAt (showMenuItem offset_y menuCursor menuItemsOnScreen m ++ rest) y0
      = (m, staticY offset_y m) :: printedAt rest (staticY offset_y m) := by
  unfold showMenuItem
  rw [if_pos h]
  split <;> simp [printedAt, cursorGlyph]

theorem printedAt_showMenuItem_slide (offset_y menuCursor menuItemsOnScreen : Int) (m : Nat)
    (h : menuItemsOnScreen ≤ menuCursor) (rest : List DrawCmd) (y0 : Int) :
    ∃ y1, printedAt (showMenuItem offset_y menuCursor menuItemsOnScreen m ++ rest) y0
      = (if offset_y < slideY menuCursor menuItemsOnScreen m
          then [(m, slideY menuCursor menuItemsOnScreen m)] else []) ++ printedAt rest y1 := by
  unfold showMenuItem
  rw [if_neg (by omega)]
  by_cases hc : menuCursor = (m : Int) <;>
    by_cases hy : offset_y < slideY menuCursor menuItemsOnScreen m
  · exact ⟨slideY menuCursor menuItemsOnScreen m, by
      simp [if_pos hc, if_pos hy, gt_iff_lt, printedAt, cursorGlyph]⟩
  · exact ⟨y0, by simp [if_pos hc, if_neg hy, gt_iff_lt, printedAt, cursorGlyph]⟩
  · exact ⟨slideY menuCursor menuItemsOnScreen m, by
      simp [if_neg hc, if_pos hy, gt_iff_lt, printedAt]⟩
  · exact ⟨y0, by simp [if_neg hc, if_neg hy, gt_iff_lt]⟩

theorem printedAt_static_items (offset_y menuCursor menuItemsOnScreen : Int)
    (h : menuCursor < menuItemsOnScreen) (l : List Nat) (y0 : Int) :
    printedAt (l.flatMap (showMenuItem offset_y menuCursor menuItemsOnScreen)
        ++ [DrawCmd.sendBuffer]) y0
      = l.map (fun i => (i, staticY offset_y i)) := by
  induction l generalizing y0 with
  | nil => simp [printedAt]
  | cons m l ih =>
    rw [List.flatMap_cons, List.append_assoc,
      printedAt_showMenuItem_static offset_y menuCursor menuItemsOnScreen m h, ih]
    rfl

theorem printedAt_slide_items (offset_y menuCursor menuItemsOnScreen : Int)
    (h : menuItemsOnScreen ≤ menuCursor) (l : List Nat) (y0 : Int) :
    printedAt (l.flatMap (showMenuItem offset_y menuCursor menuItemsOnScreen)
        ++ [DrawCmd.sendBuffer]) y0
      = (l.filter (fun i => offset_y < slideY menuCursor menuItemsOnScreen i)).map
          (fun i => (i, slideY menuCursor menuItemsOnScreen i)) := by
  induction l generalizing y0 with
  | nil => simp [printedAt]
  | cons m l ih =>
    obtain ⟨y1, hy1⟩ :=
      printedAt_showMenuItem_slide offset_y menuCursor menuItemsOnScreen m h
        (l.flatMap (showMenuItem offset_y menuCursor menuItemsOnScreen)
          ++ [DrawCmd.sendBuffer]) y0
    rw [List.flatMap_cons, List.append_assoc, hy1, ih]
    by_cases hy : offset_y < slideY menuCursor menuItemsOnScreen m
    · simp [List.filter_cons, hy]
    · simp [List.filter_cons, hy]

theorem printed_slide_items (offset_y menuCursor menuItemsOnScreen : Int)
    (h : menuItemsOnScreen ≤ menuCursor) (menu_len y0 : Int) :
    (printedAt (showMenu menu_len offset_y menuCursor menuItemsOnScreen) y0).map Prod.fst
      = (List.range menu_len.toNat).filter
          (fun i => offset_y < slideY menuCursor menuItemsOnScreen i) := by
  unfold showMenu
  rw [printedAt_slide_items offset_y menuCursor menuItemsOnScreen h, List.map_map]
  have hid : (Prod.fst ∘ fun i : Nat => (i, slideY menuCursor menuItemsOnScreen i)) = id := rfl
  rw [hid, List.map_id]

theorem showMenu_static_six_items (offset_y : Int) :
    (printedAt (showMenu 6 offset_y 1 4) 0).map Prod.fst = [0, 1, 2, 3, 4, 5] := by
  unfold showMenu
  rw [printedAt_static_items offset_y 1 4 (by decide)]
  simp [List.range_succ]

theorem showMenu_slide_six_items (offset_y : Int) :
    (printedAt (showMenu 6 offset_y 4 4) 0).map Prod.fst ≠ [1, 2, 3, 4] := by
  intro h
  unfold showMenu at h
  rw [printedAt_slide_items offset_y 4 4 (by decide), List.map_map] at h
  have hid : (Prod.fst ∘ fun i : Nat => (i, slideY 4 4 i)) = id := rfl
  rw [hid, List.map_id] at h
  have h4 : 4 ∈ (List.range (6 : Int).toNat).filter (fun i => offset_y < slideY 4 4 i) := by
    rw [h]; simp
  have h5 : 5 ∉ (List.range (6 : Int).toNat).filter (fun i => offset_y < slideY 4 4 i) := by
    rw [h]; simp
  have e4 : slideY 4 4 4 = 36 := by decide
  have e5 : slideY 4 4 5 = 48 := by decide
  simp only [List.mem_filter, decide_eq_true_eq, e4, e5, not_and] at h4 h5
  have := h5 (by simp)
  omega

/-- C9 as stated fails: with capacity 4, six items and the cursor at 1,
`showMenu` prints all six items, items 4 and 5 included, at y = 72 and 84. -/
theorem showMenu_static_prints_beyond_capacity :
    printedAt (showMenu 6 12 1 4) 0
        = [(0, 24), (1, 36), (2, 48), (3, 60), (4, 72), (5, 84)] ∧
      (printedAt (showMenu 6 12 1 4) 0).map Prod.fst ≠ [0, 1, 2, 3] := by
  decide

/-- C9, amended. Static window: whenever the cursor is below
`menuItemsOnScreen`, `showMenu` prints every item `i` of `0 .. menu_len - 1`,
in order, at `y = offset_y + (i + 1) * FONT_HEIGHT` taken as an `int8_t` (row
`i`); the branch has no test on the row, so the items printed are those of
rows `[0, menuItemsOnScreen)` only when the menu is no longer than that. -/
theorem showMenu_static_prints_all (menu_len offset_y menuCursor menuItemsOnScreen y0 : Int)
    (h : menuCursor < menuItemsOnScreen) :
    printedAt (showMenu menu_len offset_y menuCursor menuItemsOnScreen) y0
        = (List.range menu_len.toNat).map (fun i => (i, staticY offset_y i)) ∧
      ∀ i : Nat, -128 ≤ offset_y + ((i : Int) + 1) * FONT_HEIGHT →
        offset_y + ((i : Int) + 1) * FONT_HEIGHT ≤ 127 →
        staticY offset_y i = offset_y + ((i : Int) + 1) * FONT_HEIGHT :=
  ⟨printedAt_static_items offset_y menuCursor menuItemsOnScreen h _ y0,
    fun _ h1 h2 => wrap8_of_range _ h1 h2⟩

/-- C9 amended, at a concrete input: the sub-menu (four items, cursor 1) is
printed at rows 0 to 3. -/
theorem showMenu_static_prints_all_witness :
    printedAt (showMenu 4 12 1 4) 0 = [(0, 24), (1, 36), (2, 48), (3, 60)] := by
  rw [(showMenu_static_prints_all 4 12 1 4 0 (by decide)).1]
  decide

/-- C4 as stated fails: with capacity 4, six items, the cursor at 4 and the
offset 12 of every call, `showMenu` prints items 3, 4 and 5, not items 1 to 4. -/
theorem showMenu_slide_prints_after_cursor :
    printedAt (showMenu 6 12 4 4) 0 = [(3, 24), (4, 36), (5, 48)] ∧
      (printedAt (showMenu 6 12 4 4) 0).map Prod.fst ≠ [1, 2, 3, 4] := by
  decide

/-- C4, amended. Sliding window: whenever the cursor is at or above
`menuItemsOnScreen`, item `i` gets row `r = i - (cursor - menuItemsOnScreen + 1)`,
so the cursor item has row `menuItemsOnScreen - 1`; `showMenu` prints items of
`0 .. menu_len - 1` in index order; for `offset_y ≥ -FONT_HEIGHT` it prints no
item of a negative row (as long as `r * FONT_HEIGHT` is not below the `int8_t`
range); and the row has no upper bound: once an item whose `r * FONT_HEIGHT` is
not below the `int8_t` range is printed, every later item of the menu whose
`r * FONT_HEIGHT` fits an `int8_t` is printed as well, so within those bounds
items after the cursor are printed whenever the cursor item is. -/
theorem showMenu_slide_window (menu_len offset_y menuCursor menuItemsOnScreen y0 : Int)
    (h : menuCursor ≥ menuItemsOnScreen) :
    (∀ i : Nat, slideRow menuCursor menuItemsOnScreen i
        = (i : Int) - (menuCursor - menuItemsOnScreen + 1)) ∧
      (∀ i : Nat, (i : Int) = menuCursor →
        slideRow menuCursor menuItemsOnScreen i = menuItemsOnScreen - 1) ∧
      ((printedAt (showMenu menu_len offset_y menuCursor menuItemsOnScreen) y0).map
        Prod.fst).Sublist (List.range menu_len.toNat) ∧
      (∀ i : Nat,
        i ∈ (printedAt (showMenu menu_len offset_y menuCursor menuItemsOnScreen) y0).map
          Prod.fst →
        -FONT_HEIGHT ≤ offset_y →
        -128 ≤ slideRow menuCursor menuItemsOnScreen i * FONT_HEIGHT →
        0 ≤ slideRow menuCursor menuItemsOnScreen i) ∧
      (∀ i j : Nat, i ≤ j → (j : Int) < menu_len →
        -128 ≤ slideRow menuCursor menuItemsOnScreen i * FONT_HEIGHT →
        slideRow menuCursor menuItemsOnScreen j * FONT_HEIGHT ≤ 127 →
        i ∈ (printedAt (showMenu menu_len offset_y menuCursor menuItemsOnScreen) y0).map
          Prod.fst →
        j ∈ (printedAt (showMenu menu_len offset_y menuCursor menuItemsOnScreen) y0).map
          Prod.fst) := by
  rw [printed_slide_items offset_y menuCursor menuItemsOnScreen h menu_len y0]
  refine ⟨fun i => ?_, fun i hi => ?_, List.filter_sublist _, fun i hi ho hlo => ?_,
    fun i j hij hj hlo hhi hi => ?_⟩
  · unfold slideRow; ring
  · unfold slideRow; omega
  · simp only [List.mem_filter, decide_eq_true_eq] at hi
    have hy := hi.2
    unfold slideY at hy
    by_cases hhi : slideRow menuCursor menuItemsOnScreen i * FONT_HEIGHT ≤ 127
    · rw [wrap8_of_range _ hlo hhi] at hy
      unfold FONT_HEIGHT at ho hy
      omega
    · unfold FONT_HEIGHT at hhi
      omega
  · simp only [List.mem_filter, List.mem_range, decide_eq_true_eq] at hi ⊢
    have hy := hi.2
    have hrow : slideRow menuCursor menuItemsOnScreen i
        ≤ slideRow menuCursor menuItemsOnScreen j := by
      unfold slideRow; omega
    refine ⟨by omega, ?_⟩
    unfold slideY at hy ⊢
    rw [wrap8_of_range _ hlo (by unfold FONT_HEIGHT at hhi ⊢; omega)] at hy
    rw [wrap8_of_range _ (by unfold FONT_HEIGHT at hlo ⊢; omega) hhi]
    unfold FONT_HEIGHT at hy ⊢
    omega

/-- C4 amended, at a concrete input: capacity 4, six items, cursor 4, offset 12:
the cursor item 4 has row 3 and is printed, hence so is item 5, and item 0, of
row -1, is not. -/
theorem showMenu_slide_window_witness :
    slideRow 4 4 4 = 3 ∧
      4 ∈ (printedAt (showMenu 6 12 4 4) 0).map Prod.fst ∧
      5 ∈ (printedAt (showMenu 6 12 4 4) 0).map Prod.fst ∧
      0 ∉ (printedAt (showMenu 6 12 4 4) 0).map Prod.fst :=
  ⟨(showMenu_slide_window 6 12 4 4 0 (by decide)).2.1 4 (by decide),
    by decide,
    (showMenu_slide_window 6 12 4 4 0 (by decide)).2.2.2.2 4 5 (by decide) (by decide)
      (by decide) (by decide) (by decide),
    fun h0 => absurd
      ((showMenu_slide_window 6 12 4 4 0 (by decide)).2.2.2.1 0 h0 (by decide) (by decide))
      (by decide)⟩

end U8g2Menu
